import Mathlib

/-!
Shallow embedding of the image-to-JSON converter's core
(`canvasService.ts`: `extractColorPalette`, `medianCut`, `getColorDistance`,
`rgbToHex`, `calculateImageStats`; `geminiService.ts`: `parseJSONResponse`
and the OCR fallback), together with theorems checking the specification's
claims against it.

Modelling conventions:
* A decoded pixel buffer (`ImageData.data`) is a flat `List ℕ` of interleaved
  R,G,B,A channel values.
* JavaScript numbers are modelled as exact rationals `ℚ`; `x.toFixed(2)`
  followed by `parseFloat` is `round2` (round half towards +∞, all values
  rounded in this code are nonnegative).
* A JavaScript `NaN` (or infinite) result of a division is modelled by
  `Option ℚ` / `Option Sample` with `none` for the undefined value: `jsDiv`
  returns `none` exactly when the denominator is zero, which in this code
  happens exactly when the JS result is `NaN` (the numerators are then 0).
* `JSON.parse` is an external platform primitive, modelled as a parameter
  `jsonParse : String → Option T` (`none` = the call throws).
-/

set_option maxRecDepth 40000

namespace ImgJson

/-- An RGB colour sample: the source's `number[]` of length 3 (`[r, g, b]`). -/
abbrev Sample : Type := ℕ × ℕ × ℕ

/-- Channel access `color[channel]` for `channel ∈ {0, 1, 2}`. -/
def chan (c : Sample) : ℕ → ℕ
  | 0 => c.1
  | 1 => c.2.1
  | _ => c.2.2

/-- Division as used by the source: `none` models the JS `NaN`/infinite result
when the denominator is zero. -/
def jsDiv (x y : ℚ) : Option ℚ := if y = 0 then none else some (x / y)

/-- Model of `parseFloat(x.toFixed(2))`: rounding to two decimal places,
half away from zero for the nonnegative values arising here. -/
def round2 (x : ℚ) : ℚ := ((⌊x * 100 + 1 / 2⌋ : ℤ) : ℚ) / 100

/-- Model of `Math.round(sum / n)` for natural `sum`, `n`:
`⌊sum / n + 1 / 2⌋` computed with natural division. -/
def jsRoundDiv (sum n : ℕ) : ℕ := (2 * sum + n) / (2 * n)

/-! ### Pixel sampler (`extractColorPalette`, lines 245-257)

The source loop is `for (let i = 0; i < pixels.length; i += 40)`; it reads
`pixels[i..i+3]` and skips the pixel when `a < 128`.  The loop is embedded
with a fuel argument (`fuel = pixels.length + 1` is enough, since `i` grows
by 40 at every iteration); this keeps the definition structurally recursive
so that it evaluates on concrete buffers. -/

def sampleFromAux (pixels : List ℕ) : ℕ → ℕ → List Sample
  | 0, _ => []
  | fuel + 1, i =>
    if i < pixels.length then
      if pixels.getD (i + 3) 0 < 128 then sampleFromAux pixels fuel (i + 40)
      else
        (pixels.getD i 0, pixels.getD (i + 1) 0, pixels.getD (i + 2) 0) ::
          sampleFromAux pixels fuel (i + 40)
    else []

/-- The `sampledColors` array built by `extractColorPalette` (lines 246-257). -/
def sampledColors (pixels : List ℕ) : List Sample :=
  sampleFromAux pixels (pixels.length + 1) 0

/-! ### Median cut (`medianCut`, lines 289-325) -/

/-- Average colour of a bucket (base case of `medianCut`, lines 291-301).
For an empty bucket the source divides by zero, producing a `[NaN, NaN, NaN]`
colour; this is the `none` value. -/
def avgColor (colors : List Sample) : Option Sample :=
  if colors.length = 0 then none
  else
    some (jsRoundDiv (colors.map (fun c => chan c 0)).sum colors.length,
          jsRoundDiv (colors.map (fun c => chan c 1)).sum colors.length,
          jsRoundDiv (colors.map (fun c => chan c 2)).sum colors.length)

/-- Model of `Math.max(...values)` for the nonempty natural-valued lists the
source applies it to. -/
def maxVal : List ℕ → ℕ
  | [] => 0
  | x :: xs => xs.foldl Nat.max x

/-- Model of `Math.min(...values)` for the nonempty natural-valued lists the
source applies it to. -/
def minVal : List ℕ → ℕ
  | [] => 0
  | x :: xs => xs.foldl Nat.min x

/-- The range `Math.max(...values) - Math.min(...values)` of one channel over
a bucket (lines 305-308); natural subtraction agrees since max ≥ min. -/
def chanRange (colors : List Sample) (ch : ℕ) : ℕ :=
  maxVal (colors.map (fun c => chan c ch)) - minVal (colors.map (fun c => chan c ch))

/-- The split axis `ranges.indexOf(Math.max(...ranges))` (line 310):
the first channel index attaining the maximal range. -/
def maxRangeChannel (colors : List Sample) : ℕ :=
  let r0 := chanRange colors 0
  let r1 := chanRange colors 1
  let r2 := chanRange colors 2
  let m := Nat.max r0 (Nat.max r1 r2)
  if r0 = m then 0 else if r1 = m then 1 else 2

/-- The comparison relation of the sort `colors.sort((a, b) => a[c] - b[c])`
(line 313). -/
def chanRel (ch : ℕ) (a b : Sample) : Prop := chan a ch ≤ chan b ch

instance (ch : ℕ) : DecidableRel (chanRel ch) := fun _ _ => Nat.decLe _ _

/-- The sort `colors.sort((a, b) => a[maxChannel] - b[maxChannel])` (line 313).
`Array.prototype.sort` is a stable sort, and a stable sort's output is
uniquely determined by the (total, transitive) comparator, so the stable
`List.insertionSort` is a faithful embedding. -/
def sortByChannel (colors : List Sample) (ch : ℕ) : List Sample :=
  List.insertionSort (chanRel ch) colors

/-- The median-cut recursion (lines 289-325).  The arguments are swapped
(`depth` first) to make the recursion structural in `depth`; the source
guard `depth === 0 || colors.length <= 1` is split over the two equations.
An entry is `none` when the source would emit the `NaN` average of an
empty bucket. -/
def medianCut : ℕ → List Sample → List (Option Sample)
  | 0, colors => [avgColor colors]
  | depth + 1, colors =>
    if colors.length ≤ 1 then [avgColor colors]
    else
      medianCut depth
          ((sortByChannel colors (maxRangeChannel colors)).take (colors.length / 2)) ++
        medianCut depth
          ((sortByChannel colors (maxRangeChannel colors)).drop (colors.length / 2))

/-! ### Colour distance and palette assembly (lines 263-284, 330-336) -/

/-- Squared Euclidean distance.  `getColorDistance` (lines 330-336) returns
the square root of this value; its only use compares the result with 50, and
`√d < 50 ↔ d < 2500` for `d ≥ 0`, so the embedding keeps the radicand. -/
def getColorDistanceSq (c1 c2 : Sample) : ℤ :=
  ((c1.1 : ℤ) - (c2.1 : ℤ)) ^ 2 + ((c1.2.1 : ℤ) - (c2.2.1 : ℤ)) ^ 2 +
    ((c1.2.2 : ℤ) - (c2.2.2 : ℤ)) ^ 2

/-- The test `getColorDistance(pixel, color) < 50` (line 267).  When the
palette colour is the `NaN` triple (`none`), the JS distance is `NaN` and
`NaN < 50` is `false`. -/
def nearColor (p : Sample) (c : Option Sample) : Bool :=
  match c with
  | none => false
  | some c => getColorDistanceSq p c < 2500

/-- The neighbour count of one palette colour (lines 264-272). -/
def colorCount (samples : List Sample) (c : Option Sample) : ℕ :=
  (samples.filter (fun p => nearColor p c)).length

/-- Lowercase hexadecimal digit of `n < 16` (as produced by
`Number.prototype.toString(16)`). -/
def hexDigit (n : ℕ) : Char :=
  if n < 10 then Char.ofNat (48 + n) else Char.ofNat (87 + n)

/-- Digits of `x.toString(16)` for a natural number, with a fuel argument to
keep the recursion structural (`fuel = n + 1` always suffices since
`n / 16 < fuel` decreases faster than the fuel). -/
def natToHexAux : ℕ → ℕ → List Char
  | 0, _ => []
  | fuel + 1, n =>
    if n < 16 then [hexDigit n] else natToHexAux fuel (n / 16) ++ [hexDigit (n % 16)]

/-- Digits of `x.toString(16)`. -/
def natToHexChars (n : ℕ) : List Char := natToHexAux (n + 1) n

/-- One channel of `rgbToHex` (lines 343-346): the hex digits, zero-padded on
the left to two characters when only one digit was produced. -/
def hexByte (n : ℕ) : List Char :=
  let s := natToHexChars n
  if s.length = 1 then '0' :: s else s

/-- `rgbToHex` (lines 341-348). -/
def rgbToHex (r g b : ℕ) : String :=
  String.mk ('#' :: (hexByte r ++ hexByte g ++ hexByte b))

/-- One palette entry (lines 274-278). -/
structure ColorInfo where
  hex : Option String
  rgb : Option Sample
  percentage : Option ℚ
deriving DecidableEq

/-- One entry of `dominantColors` (lines 274-278): the percentage is
`parseFloat(((count / totalPixels) * 100).toFixed(2))`, `none` when
`totalPixels = 0` makes it `NaN`; `hex`/`rgb` are `none` for the `NaN`
colour of an empty bucket. -/
def mkColorInfo (samples : List Sample) (totalPixels : ℕ) (c : Option Sample) : ColorInfo :=
  { hex := c.map (fun x => rgbToHex x.1 x.2.1 x.2.2)
    rgb := c
    percentage :=
      (jsDiv (colorCount samples c : ℚ) (totalPixels : ℚ)).map (fun q => round2 (q * 100)) }

/-- The comparator of `dominantColors.sort((a, b) => b.percentage - a.percentage)`
(line 281), as the Boolean test "`a` may precede `b`".  For two defined
percentages this is descending order.  A `NaN` percentage makes the JS
comparator return `NaN`, which `Array.prototype.sort` treats as 0 (keep the
stable order); a `NaN` percentage only occurs when the sample list is empty,
in which case the palette is a singleton and the comparator is never invoked,
so the `none` cases below are unreachable and are chosen so that `percLe` is
a total, transitive relation. -/
def percLe (a b : ColorInfo) : Bool :=
  match a.percentage, b.percentage with
  | some x, some y => decide (y ≤ x)
  | none, _ => true
  | some _, none => false

/-- The sort relation on palette entries. -/
def percRel (a b : ColorInfo) : Prop := percLe a b = true

instance : DecidableRel percRel := fun _ _ => instDecidableEqBool _ _

/-- The `ColorPalette` record returned by `extractColorPalette`. -/
structure ColorPalette where
  dominantColors : List ColorInfo
deriving DecidableEq

/-- `extractColorPalette` (lines 236-284) over the flat RGBA buffer.
Note that the source passes `numColors` directly as the `depth` argument of
`medianCut` (line 260). -/
def extractColorPalette (pixels : List ℕ) (numColors : ℕ := 8) : ColorPalette :=
  let sampled := sampledColors pixels
  let palette := medianCut numColors sampled
  let totalPixels := sampled.length
  let entries := palette.map (fun c => mkColorInfo sampled totalPixels c)
  { dominantColors := List.insertionSort percRel entries }

/-! ### Image statistics (`calculateImageStats`, lines 360-423) -/

/-- Grouping of the flat buffer into RGBA pixels: models
`for (let i = 0; i < pixels.length; i += 4)` reading `pixels[i..i+3]`
(an `ImageData` buffer has length `4·W·H`, so there is no partial chunk). -/
def rgbaPixels : List ℕ → List (ℕ × ℕ × ℕ × ℕ)
  | r :: g :: b :: a :: rest => (r, g, b, a) :: rgbaPixels rest
  | _ => []

/-- The pixels both loops of `calculateImageStats` actually accumulate:
those with `a ≥ 128` (the source skips `a < 128`, lines 381 and 406). -/
def eligiblePixels (pixels : List ℕ) : List (ℕ × ℕ × ℕ × ℕ) :=
  (rgbaPixels pixels).filter (fun p => decide (128 ≤ p.2.2.2))

/-- Perceived luminance `0.299*r + 0.587*g + 0.114*b` (line 384). -/
def brightnessQ (r g b : ℕ) : ℚ := 0.299 * r + 0.587 * g + 0.114 * b

/-- The `colorDistribution` record. -/
structure ColorDistribution where
  red : Option ℚ
  green : Option ℚ
  blue : Option ℚ
deriving DecidableEq

/-- The `ImageStats` record.  The source's `averageContrast` is
`parseFloat(Math.sqrt(contrastSq).toFixed(2))`; since the square root is
irrational in general the embedding stores the radicand
`varianceSum / pixelCount`, and theorems about `averageContrast` apply
`Real.sqrt` to it. -/
structure ImageStats where
  averageBrightness : Option ℚ
  contrastSq : Option ℚ
  colorDistribution : ColorDistribution
deriving DecidableEq

/-- `calculateImageStats` (lines 360-423).  In the second pass the source
reads the possibly-`NaN` `avgBrightness`; when `pixelCount = 0` that loop
body never runs, so `varianceSum` is 0 and the `getD` default is never
semantically read. -/
def calculateImageStats (pixels : List ℕ) : ImageStats :=
  let ps := eligiblePixels pixels
  let n : ℚ := (ps.length : ℚ)
  let totalBrightness := (ps.map (fun p => brightnessQ p.1 p.2.1 p.2.2.1)).sum
  let totalRed := (ps.map (fun p => (p.1 : ℚ))).sum
  let totalGreen := (ps.map (fun p => (p.2.1 : ℚ))).sum
  let totalBlue := (ps.map (fun p => (p.2.2.1 : ℚ))).sum
  let avgBrightness := jsDiv totalBrightness n
  let varianceSum :=
    (ps.map (fun p => (brightnessQ p.1 p.2.1 p.2.2.1 - avgBrightness.getD 0) ^ 2)).sum
  { averageBrightness := avgBrightness.map round2
    contrastSq := jsDiv varianceSum n
    colorDistribution :=
      { red := (jsDiv totalRed n).map round2
        green := (jsDiv totalGreen n).map round2
        blue := (jsDiv totalBlue n).map round2 } }

/-! ### Gemini response parsing (`geminiService.ts`, lines 189-204) -/

/-- When `t` is a leading piece of `s`, the remainder of `s` after it. -/
def dropPre? : List Char → List Char → Option (List Char)
  | [], s => some s
  | _ :: _, [] => none
  | t :: ts, c :: cs => if c = t then dropPre? ts cs else none

/-- Drop one leading newline if present (the `\n?` part of the fence
patterns). -/
def dropNl : List Char → List Char
  | c :: cs => if c = '\n' then cs else c :: cs
  | [] => []

/-- Remove every occurrence of `tok` (each with one optional following
newline), scanning left to right: the global `replace` of the source.  Fuel
keeps the recursion structural; `fuel = s.length` suffices for the nonempty
tokens used. -/
def removeTokAux (tok : List Char) : ℕ → List Char → List Char
  | 0, s => s
  | fuel + 1, s =>
    match s with
    | [] => []
    | c :: cs =>
      match dropPre? tok (c :: cs) with
      | some rest => removeTokAux tok fuel (dropNl rest)
      | none => c :: removeTokAux tok fuel cs

/-- Model of `s.replace(/tok\n?/g, '')`. -/
def removeAllTok (tok : List Char) (s : List Char) : List Char :=
  removeTokAux tok s.length s

/-- The backtick character (avoids a backtick literal in the file). -/
def btChar : Char := Char.ofNat 96

/-- The pattern of the first fence regex (three backticks then `json`). -/
def jsonFence : List Char := [btChar, btChar, btChar, 'j', 's', 'o', 'n']

/-- The pattern of the second fence regex (three backticks). -/
def bareFence : List Char := [btChar, btChar, btChar]

/-- Model of `String.prototype.trim` (the exotic Unicode spaces JS also trims
are irrelevant to the claims). -/
def jsTrim (s : List Char) : List Char :=
  ((s.dropWhile Char.isWhitespace).reverse.dropWhile Char.isWhitespace).reverse

/-- The cleaning phase of `parseJSONResponse` (lines 192-197): trim, then
strip markdown code fences depending on the leading fence kind. -/
def cleanedResponse (text : String) : String :=
  let s := jsTrim text.data
  let s2 :=
    if (dropPre? jsonFence s).isSome then removeAllTok bareFence (removeAllTok jsonFence s)
    else if (dropPre? bareFence s).isSome then removeAllTok bareFence s
    else s
  String.mk s2

/-- `parseJSONResponse` (lines 189-204): `JSON.parse` is an external platform
primitive, passed in as `jsonParse` (`none` models a thrown `SyntaxError`);
the `catch` branch returns the fallback. -/
def parseJSONResponse {T : Type} (jsonParse : String → Option T) (text : String)
    (fallback : T) : T :=
  (jsonParse (cleanedResponse text)).getD fallback

/-- The OCR branch of `analyzeImageWithGemini` (line 52):
`result.ocr = parseJSONResponse<OCRResult[]>(ocrText, [])`. -/
def ocrField {O : Type} (jsonParse : String → Option (List O)) (ocrText : String) : List O :=
  parseJSONResponse jsonParse ocrText []

/-! ### Definitions taken from the specification's words (for refinement
claims and for code the repository does not contain) -/

/-- The sampler contract as the spec words it: visit the flat-array offsets
that are multiples of 40 (every 10th pixel) and keep the RGB triple of each
visited pixel whose alpha channel is at least 128, in buffer order. -/
def specSampleStep (pixels : List ℕ) (i : ℕ) : Option Sample :=
  if 128 ≤ pixels.getD (i + 3) 0 then
    some (pixels.getD i 0, pixels.getD (i + 1) 0, pixels.getD (i + 2) 0)
  else none

/-- The spec-side sampler: all offsets `40·j` below the buffer length, in
order. -/
def specSampledColors (pixels : List ℕ) : List Sample :=
  (List.range ((pixels.length + 39) / 40)).filterMap
    (fun j => specSampleStep pixels (40 * j))

/-- Modelled from the spec: the repository's sources contain no `hexToRgb`
(only `rgbToHex` exists); the spec's round-trip property (§8) and its
`PaletteEntry` format (lowercase `#rrggbb`) determine a parser of `#rrggbb`
strings into an RGB triple.  Digit value of one lowercase hex digit. -/
def hexDigitVal (c : Char) : Option ℕ :=
  if 48 ≤ c.toNat ∧ c.toNat ≤ 57 then some (c.toNat - 48)
  else if 97 ≤ c.toNat ∧ c.toNat ≤ 102 then some (c.toNat - 87)
  else none

/-- Modelled from the spec: value of a two-digit lowercase hex byte. -/
def hexPairVal (hi lo : Char) : Option ℕ := do
  let x ← hexDigitVal hi
  let y ← hexDigitVal lo
  pure (16 * x + y)

/-- Modelled from the spec: `hexToRgb`, parsing a lowercase `#rrggbb` string
into its RGB triple (see `hexDigitVal`). -/
def hexToRgb (s : String) : Option Sample :=
  match s.data with
  | ['#', r1, r2, g1, g2, b1, b2] => do
    let r ← hexPairVal r1 r2
    let g ← hexPairVal g1 g2
    let b ← hexPairVal b1 b2
    pure (r, g, b)
  | _ => none

/-- A uniform fully-opaque image of colour `(r, g, b)` with `n` pixels, as a
flat RGBA buffer. -/
def uniformBuffer (r g b n : ℕ) : List ℕ :=
  (List.replicate n [r, g, b, 255]).flatten

/-- Value of a two-character hex byte (proof helper for the round trip). -/
def hexByteVal : List Char → Option ℕ
  | [hi, lo] => hexPairVal hi lo
  | _ => none

/-! ## Helper lemmas -/

lemma medianCut_nil (d : ℕ) : medianCut d ([] : List Sample) = [none] := by
  cases d <;> simp [medianCut, avgColor]

lemma sortByChannel_length (colors : List Sample) (ch : ℕ) :
    (sortByChannel colors ch).length = colors.length :=
  (List.perm_insertionSort _ _).length_eq

lemma avgColor_isSome {colors : List Sample} (h : colors ≠ []) :
    (avgColor colors).isSome = true := by
  rw [avgColor, if_neg (by simpa [List.length_eq_zero] using h)]
  rfl

/-- On a nonempty bucket no recursive bucket of `medianCut` is ever empty, so
every emitted colour is defined (never the `NaN` triple). -/
lemma medianCut_all_some :
    ∀ (d : ℕ) (colors : List Sample), colors ≠ [] →
      ∀ c ∈ medianCut d colors, c.isSome = true := by
  intro d
  induction d with
  | zero =>
    intro colors hne c hc
    simp only [medianCut, List.mem_singleton] at hc
    subst hc
    exact avgColor_isSome hne
  | succ d ih =>
    intro colors hne c hc
    by_cases hl : colors.length ≤ 1
    · simp only [medianCut, if_pos hl, List.mem_singleton] at hc
      subst hc
      exact avgColor_isSome hne
    · push_neg at hl
      simp only [medianCut, if_neg (by omega : ¬ colors.length ≤ 1),
        List.mem_append] at hc
      have hslen : (sortByChannel colors (maxRangeChannel colors)).length =
          colors.length := sortByChannel_length _ _
      rcases hc with hc | hc
      · refine ih _ ?_ c hc
        rw [← List.length_pos, List.length_take]
        omega
      · refine ih _ ?_ c hc
        rw [← List.length_pos, List.length_drop]
        omega

/-- Number of representative colours: `min (sample count) 2^depth` for a
nonempty sample list. -/
lemma medianCut_length :
    ∀ (d : ℕ) (colors : List Sample), colors ≠ [] →
      (medianCut d colors).length = min colors.length (2 ^ d) := by
  intro d
  induction d with
  | zero =>
    intro colors hne
    have h1 : 0 < colors.length := List.length_pos.mpr hne
    simp only [medianCut, List.length_singleton, pow_zero]
    omega
  | succ d ih =>
    intro colors hne
    have h1 : 0 < colors.length := List.length_pos.mpr hne
    have hp : 1 ≤ 2 ^ d := Nat.one_le_two_pow
    have hpow : 2 ^ (d + 1) = 2 ^ d + 2 ^ d := by ring
    by_cases hl : colors.length ≤ 1
    · simp only [medianCut, if_pos hl, List.length_singleton]
      omega
    · push_neg at hl
      have hslen : (sortByChannel colors (maxRangeChannel colors)).length =
          colors.length := sortByChannel_length _ _
      simp only [medianCut, if_neg (by omega : ¬ colors.length ≤ 1),
        List.length_append]
      rw [ih _ (by rw [← List.length_pos, List.length_take]; omega),
        ih _ (by rw [← List.length_pos, List.length_drop]; omega),
        List.length_take, List.length_drop, hslen]
      omega

/-! ## Claims -/

/-- C1 (evidence of the code bug): on a buffer whose sample set has two
colours, `extractColorPalette` with the default target `N = 8` returns a
palette of length 2, not 8 — the source passes `numColors` itself as the
`medianCut` recursion depth, so the palette length is
`min (sampleCount) (2 ^ N)` instead of `N`. -/
theorem c1_palette_length_at_bug_input :
    (extractColorPalette ([0, 0, 0, 255] ++ List.replicate 36 0 ++ [255, 255, 255, 255])
        8).dominantColors.length = 2 := by
  have hs : sampledColors ([0, 0, 0, 255] ++ List.replicate 36 0 ++ [255, 255, 255, 255]) =
      [(0, 0, 0), (255, 255, 255)] := by decide
  unfold extractColorPalette
  rw [hs, List.length_insertionSort, List.length_map,
    medianCut_length 8 _ (by decide)]
  decide

/-- C2 (evidence of the code bug): on a single fully-transparent pixel, every
statistics field and the palette's colour and percentage are the JS `NaN`
(embedded as `none`) — no defined sentinel is returned. -/
theorem c2_degenerate_nan_at_bug_input :
    calculateImageStats [0, 0, 0, 0] =
      { averageBrightness := none, contrastSq := none,
        colorDistribution := { red := none, green := none, blue := none } } ∧
    (extractColorPalette [0, 0, 0, 0] 8).dominantColors.map
        (fun e => (e.rgb, e.percentage)) = [(none, none)] :=
  ⟨by decide, by decide⟩

/-- C10: the median-cut recursion is total: the base case fires at depth 0 or
on a bucket of at most one sample, and otherwise the function satisfies the
recursive equation in which both calls use depth one less. -/
theorem c10_medianCut_total (colors : List Sample) (depth : ℕ) :
    medianCut 0 colors = [avgColor colors] ∧
    (colors.length ≤ 1 → medianCut depth colors = [avgColor colors]) ∧
    (0 < depth → 1 < colors.length →
      medianCut depth colors =
        medianCut (depth - 1)
            ((sortByChannel colors (maxRangeChannel colors)).take (colors.length / 2)) ++
          medianCut (depth - 1)
            ((sortByChannel colors (maxRangeChannel colors)).drop (colors.length / 2))) := by
  refine ⟨rfl, ?_, ?_⟩
  · intro h
    cases depth with
    | zero => rfl
    | succ d => simp only [medianCut, if_pos h]
  · intro hd hl
    cases depth with
    | zero => omega
    | succ d =>
      simp only [medianCut, Nat.add_sub_cancel]
      rw [if_neg (by omega)]

theorem c10_medianCut_total_witness :
    medianCut 1 [(0, 0, 0), (9, 9, 9)] =
      medianCut 0 ((sortByChannel [(0, 0, 0), (9, 9, 9)]
            (maxRangeChannel [(0, 0, 0), (9, 9, 9)])).take
          ([((0 : ℕ), (0 : ℕ), (0 : ℕ)), (9, 9, 9)].length / 2)) ++
        medianCut 0 ((sortByChannel [(0, 0, 0), (9, 9, 9)]
              (maxRangeChannel [(0, 0, 0), (9, 9, 9)])).drop
            ([((0 : ℕ), (0 : ℕ), (0 : ℕ)), (9, 9, 9)].length / 2)) :=
  (c10_medianCut_total [(0, 0, 0), (9, 9, 9)] 1).2.2 (by decide) (by decide)

/-- C9: whenever the (externally supplied) JSON parser rejects the cleaned
response text — in particular fenced text that is invalid after fence
stripping — `parseJSONResponse` returns the supplied fallback, and the OCR
field of the result is the empty list. -/
theorem c9_malformed_json_fallback {T O : Type} (jsonParse : String → Option T)
    (ocrParse : String → Option (List O)) (text ocrText : String) (fallback : T)
    (h : jsonParse (cleanedResponse text) = none)
    (hocr : ocrParse (cleanedResponse ocrText) = none) :
    parseJSONResponse jsonParse text fallback = fallback ∧
    ocrField ocrParse ocrText = [] := by
  constructor
  · simp [parseJSONResponse, h]
  · simp [ocrField, parseJSONResponse, hocr]

theorem c9_malformed_json_fallback_witness :
    parseJSONResponse (fun _ => (none : Option ℕ)) "```json\nnot json\n```" 7 = 7 ∧
    ocrField (fun _ => (none : Option (List ℕ))) "```json\nnot json\n```" = [] :=
  c9_malformed_json_fallback _ _ _ _ _ rfl rfl

lemma hexByte_length : ∀ n, n < 256 → (hexByte n).length = 2 := by decide

lemma hexByteVal_hexByte : ∀ n, n < 256 → hexByteVal (hexByte n) = some n := by decide

/-- C8: converting an RGB triple with channels in [0, 255] to its lowercase
`#rrggbb` string and parsing it back is the identity. -/
theorem c8_hex_round_trip (r g b : ℕ) (hr : r ≤ 255) (hg : g ≤ 255) (hb : b ≤ 255) :
    hexToRgb (rgbToHex r g b) = some (r, g, b) := by
  obtain ⟨r1, r2, hR⟩ := List.length_eq_two.mp (hexByte_length r (by omega))
  obtain ⟨g1, g2, hG⟩ := List.length_eq_two.mp (hexByte_length g (by omega))
  obtain ⟨b1, b2, hB⟩ := List.length_eq_two.mp (hexByte_length b (by omega))
  have hr' := hexByteVal_hexByte r (by omega)
  have hg' := hexByteVal_hexByte g (by omega)
  have hb' := hexByteVal_hexByte b (by omega)
  rw [hR] at hr'
  rw [hG] at hg'
  rw [hB] at hb'
  simp only [hexByteVal] at hr' hg' hb'
  unfold rgbToHex hexToRgb
  rw [hR, hG, hB]
  simp [hr', hg', hb']

theorem c8_hex_round_trip_witness : hexToRgb (rgbToHex 59 130 246) = some (59, 130, 246) :=
  c8_hex_round_trip 59 130 246 (by decide) (by decide) (by decide)

/-- The sampling loop visits exactly the offsets `40·j` with `j` below
`⌈length/40⌉`, keeping the triples whose alpha is at least 128. -/
lemma sampleFromAux_eq (pixels : List ℕ) :
    ∀ (fuel j : ℕ), (pixels.length + 39) / 40 ≤ j + fuel →
      sampleFromAux pixels fuel (40 * j) =
        (List.range' j ((pixels.length + 39) / 40 - j)).filterMap
          (fun t => specSampleStep pixels (40 * t)) := by
  intro fuel
  induction fuel with
  | zero =>
    intro j hj
    have h0 : (pixels.length + 39) / 40 - j = 0 := by omega
    rw [h0]
    rfl
  | succ fuel ih =>
    intro j hj
    have hd := Nat.div_add_mod (pixels.length + 39) 40
    have hm : (pixels.length + 39) % 40 < 40 := Nat.mod_lt _ (by norm_num)
    by_cases hlt : 40 * j < pixels.length
    · have hMj : (pixels.length + 39) / 40 - j =
          ((pixels.length + 39) / 40 - (j + 1)) + 1 := by omega
      rw [hMj, List.range'_succ]
      simp only [sampleFromAux]
      rw [if_pos hlt]
      have h40 : 40 * j + 40 = 40 * (j + 1) := by ring
      by_cases ha : pixels.getD (40 * j + 3) 0 < 128
      · rw [if_pos ha, List.filterMap_cons_none (by unfold specSampleStep; rw [if_neg]; omega),
          h40]
        exact ih (j + 1) (by omega)
      · rw [if_neg ha,
          List.filterMap_cons_some (by unfold specSampleStep; rw [if_pos]; omega), h40,
          ih (j + 1) (by omega)]
    · simp only [sampleFromAux]
      rw [if_neg hlt]
      have h0 : (pixels.length + 39) / 40 - j = 0 := by omega
      rw [h0]
      rfl

/-- C4: on an RGBA buffer of length `4·W·H` the sampler output is exactly the
sequence of RGB triples at the flat-array offsets that are multiples of 40
whose alpha channel is at least 128, in buffer order; an empty buffer yields
an empty sample sequence. -/
theorem c4_sampler (pixels : List ℕ) (W H : ℕ) (_hlen : pixels.length = 4 * W * H) :
    sampledColors pixels = specSampledColors pixels ∧
    sampledColors ([] : List ℕ) = [] := by
  refine ⟨?_, rfl⟩
  have hd := Nat.div_add_mod (pixels.length + 39) 40
  have hm : (pixels.length + 39) % 40 < 40 := Nat.mod_lt _ (by norm_num)
  have h := sampleFromAux_eq pixels (pixels.length + 1) 0 (by omega)
  unfold sampledColors specSampledColors
  rw [List.range_eq_range']
  simpa using h

theorem c4_sampler_witness :
    sampledColors [1, 2, 3, 255] = specSampledColors [1, 2, 3, 255] ∧
    sampledColors ([] : List ℕ) = [] :=
  c4_sampler [1, 2, 3, 255] 1 1 (by decide)

/-- Rounding leaves a natural number unchanged. -/
lemma round2_natCast (k : ℕ) : round2 (k : ℚ) = k := by
  unfold round2
  have h1 : ((k : ℚ) * 100 + 1 / 2) = ((100 * k : ℤ) : ℚ) + 1 / 2 := by push_cast; ring
  have h2 : ⌊(1 / 2 : ℚ)⌋ = 0 := by norm_num [Int.floor_eq_iff]
  rw [h1, Int.floor_int_add, h2]
  push_cast
  field_simp

lemma rgbaPixels_uniform (r g b : ℕ) :
    ∀ n, rgbaPixels (uniformBuffer r g b n) = List.replicate n (r, g, b, 255) := by
  intro n
  induction n with
  | zero => rfl
  | succ n ih =>
    unfold uniformBuffer at ih ⊢
    rw [List.replicate_succ, List.flatten_cons]
    show (r, g, b, 255) :: rgbaPixels ((List.replicate n [r, g, b, 255]).flatten) = _
    rw [ih, List.replicate_succ]

lemma eligiblePixels_uniform (r g b n : ℕ) :
    eligiblePixels (uniformBuffer r g b n) = List.replicate n (r, g, b, 255) := by
  unfold eligiblePixels
  rw [rgbaPixels_uniform, List.filter_eq_self.mpr]
  intro a ha
  rw [List.eq_of_mem_replicate ha]
  simp

/-- C5: a uniform fully-opaque image of colour `(r, g, b)` with at least one
pixel has `averageContrast = 0.00` (the contrast radicand is 0, and the
rounded square root is 0), `colorDistribution = (r, g, b)`, and
`averageBrightness = round2 (0.299·r + 0.587·g + 0.114·b)`. -/
theorem c5_uniform_stats (r g b n : ℕ) (_hr : r ≤ 255) (_hg : g ≤ 255) (_hb : b ≤ 255)
    (hn : 0 < n) :
    calculateImageStats (uniformBuffer r g b n) =
      { averageBrightness := some (round2 (brightnessQ r g b))
        contrastSq := some 0
        colorDistribution :=
          { red := some (r : ℚ), green := some (g : ℚ), blue := some (b : ℚ) } } ∧
    (∀ v : ℚ, (calculateImageStats (uniformBuffer r g b n)).contrastSq = some v →
      ((⌊Real.sqrt (v : ℝ) * 100 + 1 / 2⌋ : ℤ) : ℚ) / 100 = 0) := by
  have hne : ((n : ℚ)) ≠ 0 := Nat.cast_ne_zero.mpr hn.ne'
  have hmain : calculateImageStats (uniformBuffer r g b n) =
      { averageBrightness := some (round2 (brightnessQ r g b))
        contrastSq := some 0
        colorDistribution :=
          { red := some (r : ℚ), green := some (g : ℚ), blue := some (b : ℚ) } } := by
    unfold calculateImageStats
    rw [eligiblePixels_uniform]
    simp only [List.map_replicate, List.sum_replicate, List.length_replicate, nsmul_eq_mul,
      jsDiv, if_neg hne, Option.getD_some, Option.map_some', mul_div_cancel_left₀ _ hne,
      sub_self, zero_pow (by norm_num : (2 : ℕ) ≠ 0), mul_zero, zero_div, round2_natCast]
  refine ⟨hmain, ?_⟩
  intro v hv
  rw [hmain] at hv
  simp only [Option.some.injEq] at hv
  subst hv
  rw [Rat.cast_zero, Real.sqrt_zero, zero_mul, zero_add]
  norm_num [Int.floor_eq_iff]

/-- The split axis is the least channel index attaining the maximal range
(`Array.prototype.indexOf` returns the first matching index). -/
lemma maxRangeChannel_spec (colors : List Sample) :
    maxRangeChannel colors < 3 ∧
    (∀ k, k < 3 → chanRange colors k ≤ chanRange colors (maxRangeChannel colors)) ∧
    (∀ k, k < maxRangeChannel colors →
      chanRange colors k < chanRange colors (maxRangeChannel colors)) := by
  simp only [maxRangeChannel]
  generalize hm : Nat.max (chanRange colors 0)
    (Nat.max (chanRange colors 1) (chanRange colors 2)) = m
  have hle0 : chanRange colors 0 ≤ m := hm ▸ Nat.le_max_left _ _
  have hle1 : chanRange colors 1 ≤ m :=
    hm ▸ le_trans (Nat.le_max_left _ _) (Nat.le_max_right _ _)
  have hle2 : chanRange colors 2 ≤ m :=
    hm ▸ le_trans (Nat.le_max_right _ _) (Nat.le_max_right _ _)
  have hchoice : m = chanRange colors 0 ∨ m = chanRange colors 1 ∨
      m = chanRange colors 2 := by
    rcases max_choice (chanRange colors 0)
      (Nat.max (chanRange colors 1) (chanRange colors 2)) with h | h
    · exact Or.inl (hm.symm.trans h)
    · rcases max_choice (chanRange colors 1) (chanRange colors 2) with h' | h'
      · exact Or.inr (Or.inl ((hm.symm.trans h).trans h'))
      · exact Or.inr (Or.inr ((hm.symm.trans h).trans h'))
  clear hm
  split_ifs with h0 h1 <;>
    refine ⟨by norm_num, fun k hk => ?_, fun k hk => ?_⟩ <;>
    rcases hchoice with hc | hc | hc <;>
    interval_cases k <;>
    omega

/-- C3: on a bucket with more than one sample and positive depth budget, the
median-cut step selects as split axis the channel of largest range (ties to
the lowest channel index), stably sorts the bucket by that channel, splits at
`⌊length/2⌋` (the left half receiving the smaller half on odd lengths), and
recurses on both halves with depth reduced by one. -/
theorem c3_median_cut_split (colors : List Sample) (depth : ℕ)
    (hlen : 1 < colors.length) (hdep : 0 < depth) :
    maxRangeChannel colors < 3 ∧
    (∀ k, k < 3 → chanRange colors k ≤ chanRange colors (maxRangeChannel colors)) ∧
    (∀ k, k < maxRangeChannel colors →
      chanRange colors k < chanRange colors (maxRangeChannel colors)) ∧
    (sortByChannel colors (maxRangeChannel colors)).Perm colors ∧
    List.Sorted (chanRel (maxRangeChannel colors))
      (sortByChannel colors (maxRangeChannel colors)) ∧
    ((sortByChannel colors (maxRangeChannel colors)).take (colors.length / 2)).length =
      colors.length / 2 ∧
    ((sortByChannel colors (maxRangeChannel colors)).drop (colors.length / 2)).length =
      colors.length - colors.length / 2 ∧
    medianCut depth colors =
      medianCut (depth - 1)
          ((sortByChannel colors (maxRangeChannel colors)).take (colors.length / 2)) ++
        medianCut (depth - 1)
          ((sortByChannel colors (maxRangeChannel colors)).drop (colors.length / 2)) := by
  obtain ⟨h3, hmax, htie⟩ := maxRangeChannel_spec colors
  refine ⟨h3, hmax, htie, List.perm_insertionSort _ _, ?_, ?_, ?_, ?_⟩
  · haveI : IsTotal Sample (chanRel (maxRangeChannel colors)) :=
      ⟨fun _ _ => Nat.le_total _ _⟩
    haveI : IsTrans Sample (chanRel (maxRangeChannel colors)) :=
      ⟨fun _ _ _ => Nat.le_trans⟩
    exact List.sorted_insertionSort _ _
  · rw [List.length_take, sortByChannel_length]
    omega
  · rw [List.length_drop, sortByChannel_length]
  · cases depth with
    | zero => omega
    | succ d =>
      simp only [medianCut, Nat.add_sub_cancel]
      rw [if_neg (by omega)]

theorem c3_median_cut_split_witness :
    maxRangeChannel ([(0, 0, 0), (9, 9, 9)] : List Sample) < 3 ∧
    (sortByChannel ([(0, 0, 0), (9, 9, 9)] : List Sample)
        (maxRangeChannel ([(0, 0, 0), (9, 9, 9)] : List Sample))).Perm
      ([(0, 0, 0), (9, 9, 9)] : List Sample) ∧
    List.Sorted (chanRel (maxRangeChannel ([(0, 0, 0), (9, 9, 9)] : List Sample)))
      (sortByChannel ([(0, 0, 0), (9, 9, 9)] : List Sample)
        (maxRangeChannel ([(0, 0, 0), (9, 9, 9)] : List Sample))) ∧
    medianCut 1 ([(0, 0, 0), (9, 9, 9)] : List Sample) =
      medianCut 0 ((sortByChannel ([(0, 0, 0), (9, 9, 9)] : List Sample)
            (maxRangeChannel ([(0, 0, 0), (9, 9, 9)] : List Sample))).take
          (([(0, 0, 0), (9, 9, 9)] : List Sample).length / 2)) ++
        medianCut 0 ((sortByChannel ([(0, 0, 0), (9, 9, 9)] : List Sample)
              (maxRangeChannel ([(0, 0, 0), (9, 9, 9)] : List Sample))).drop
            (([(0, 0, 0), (9, 9, 9)] : List Sample).length / 2)) :=
  ⟨(c3_median_cut_split ([(0, 0, 0), (9, 9, 9)] : List Sample) 1 (by decide) (by decide)).1,
    (c3_median_cut_split ([(0, 0, 0), (9, 9, 9)] : List Sample) 1 (by decide)
        (by decide)).2.2.2.1,
    (c3_median_cut_split ([(0, 0, 0), (9, 9, 9)] : List Sample) 1 (by decide)
        (by decide)).2.2.2.2.1,
    (c3_median_cut_split ([(0, 0, 0), (9, 9, 9)] : List Sample) 1 (by decide)
        (by decide)).2.2.2.2.2.2.2⟩

lemma percRel_total (a b : ColorInfo) : percRel a b ∨ percRel b a := by
  unfold percRel percLe
  cases a.percentage with
  | none => simp
  | some x =>
    cases b.percentage with
    | none => simp
    | some y =>
      simp only [decide_eq_true_eq]
      exact le_total y x

lemma percRel_trans (a b c : ColorInfo) (hab : percRel a b) (hbc : percRel b c) :
    percRel a c := by
  unfold percRel percLe at hab hbc ⊢
  cases ha : a.percentage with
  | none => simp
  | some x =>
    cases hc : c.percentage with
    | none =>
      cases hb : b.percentage with
      | none => rw [ha, hb] at hab; simp at hab
      | some y => rw [ha, hb] at hab; rw [hb, hc] at hbc; simp at hbc
    | some z =>
      cases hb : b.percentage with
      | none => rw [hb] at hab; rw [ha] at hab; simp at hab
      | some y =>
        rw [ha, hb] at hab
        rw [hb, hc] at hbc
        simp only [decide_eq_true_eq] at hab hbc ⊢
        exact le_trans hbc hab

lemma round2_nonneg {x : ℚ} (hx : 0 ≤ x) : 0 ≤ round2 x := by
  unfold round2
  have h : (0 : ℤ) ≤ ⌊x * 100 + 1 / 2⌋ := Int.floor_nonneg.mpr (by linarith)
  have h' : (0 : ℚ) ≤ ((⌊x * 100 + 1 / 2⌋ : ℤ) : ℚ) := by exact_mod_cast h
  linarith

lemma round2_le_100 {x : ℚ} (hx : x ≤ 100) : round2 x ≤ 100 := by
  unfold round2
  have h1 : ⌊x * 100 + 1 / 2⌋ ≤ ⌊((10000 : ℤ) : ℚ) + 1 / 2⌋ :=
    Int.floor_mono (by push_cast; linarith)
  rw [Int.floor_int_add, show ⌊(1 / 2 : ℚ)⌋ = 0 by norm_num [Int.floor_eq_iff]] at h1
  have h2 : ((⌊x * 100 + 1 / 2⌋ : ℤ) : ℚ) ≤ 10000 := by exact_mod_cast h1
  linarith

/-- Every entry of a palette built from a nonempty sample list carries a
defined percentage in [0, 100]. -/
lemma extractColorPalette_percentage_some (pixels : List ℕ) (numColors : ℕ)
    (hs : sampledColors pixels ≠ []) :
    ∀ e ∈ (extractColorPalette pixels numColors).dominantColors,
      ∃ q, e.percentage = some q ∧ 0 ≤ q ∧ q ≤ 100 := by
  intro e he
  simp only [extractColorPalette] at he
  have he' : e ∈ (medianCut numColors (sampledColors pixels)).map
      (fun c => mkColorInfo (sampledColors pixels) (sampledColors pixels).length c) :=
    (List.perm_insertionSort _ _).mem_iff.mp he
  obtain ⟨c, hc, rfl⟩ := List.mem_map.mp he'
  have hcs : c.isSome = true := medianCut_all_some _ _ hs c hc
  obtain ⟨c', rfl⟩ := Option.isSome_iff_exists.mp hcs
  have htot : (sampledColors pixels).length ≠ 0 := by
    simpa [List.length_eq_zero] using hs
  have hne : ((sampledColors pixels).length : ℚ) ≠ 0 := Nat.cast_ne_zero.mpr htot
  have hpos : (0 : ℚ) < ((sampledColors pixels).length : ℚ) :=
    lt_of_le_of_ne (by positivity) (Ne.symm hne)
  simp only [mkColorInfo, jsDiv, if_neg hne, Option.map_some']
  refine ⟨_, rfl, ?_, ?_⟩
  · apply round2_nonneg
    positivity
  · apply round2_le_100
    have hcount : ((colorCount (sampledColors pixels) (some c')) : ℚ) ≤
        ((sampledColors pixels).length : ℚ) := by
      exact_mod_cast List.length_filter_le _ _
    have hdiv : ((colorCount (sampledColors pixels) (some c')) : ℚ) /
        ((sampledColors pixels).length : ℚ) ≤ 1 := (div_le_one hpos).mpr hcount
    linarith

/-- Adjacent entries of a pairwise-`percRel` list of defined percentages are
in descending order of percentage. -/
lemma chain_of_pairwise_some :
    ∀ L : List ColorInfo, List.Pairwise percRel L →
      (∀ e ∈ L, ∃ q, e.percentage = some q) →
      List.Chain'
        (fun a b => ∃ x y, a.percentage = some x ∧ b.percentage = some y ∧ y ≤ x) L := by
  intro L
  induction L with
  | nil => intro _ _; exact List.chain'_nil
  | cons a t ih =>
    intro hp hall
    cases t with
    | nil => exact List.chain'_singleton a
    | cons b t2 =>
      rw [List.chain'_cons]
      refine ⟨?_, ih (List.pairwise_cons.mp hp).2 (fun e he => hall e (by simp [he]))⟩
      have hab : percRel a b := (List.pairwise_cons.mp hp).1 b (by simp)
      obtain ⟨x, hx⟩ := hall a (by simp)
      obtain ⟨y, hy⟩ := hall b (by simp)
      refine ⟨x, y, hx, hy, ?_⟩
      unfold percRel percLe at hab
      rw [hx, hy] at hab
      simpa using hab

/-- C6: the palette is sorted descending by percentage: every pair of
adjacent entries has defined-or-vacuous percentages with the left one at
least the right one (for every input, including degenerate ones, where the
palette is a singleton and the condition is vacuous). -/
theorem c6_palette_sorted_desc (pixels : List ℕ) (numColors : ℕ) :
    List.Chain'
      (fun a b => ∃ x y, a.percentage = some x ∧ b.percentage = some y ∧ y ≤ x)
      (extractColorPalette pixels numColors).dominantColors := by
  by_cases hs : sampledColors pixels = []
  · simp only [extractColorPalette, hs, medianCut_nil]
    simp [List.insertionSort, List.orderedInsert]
  · have hall := extractColorPalette_percentage_some pixels numColors hs
    have hsorted : List.Pairwise percRel (extractColorPalette pixels numColors).dominantColors := by
      simp only [extractColorPalette]
      haveI : IsTotal ColorInfo percRel := ⟨percRel_total⟩
      haveI : IsTrans ColorInfo percRel := ⟨percRel_trans⟩
      exact List.sorted_insertionSort _ _
    exact chain_of_pairwise_some _ hsorted
      (fun e he => (hall e he).imp (fun q hq => hq.1))

lemma map_percentage_eq :
    ∀ L : List ColorInfo,
      (∀ e ∈ L, ∃ q, e.percentage = some q ∧ 0 ≤ q ∧ q ≤ 100) →
      L.map (fun e => e.percentage) =
          (L.filterMap (fun e => e.percentage)).map some ∧
        (L.filterMap (fun e => e.percentage)).sum ≤ 100 * (L.length : ℚ) := by
  intro L
  induction L with
  | nil => intro _; exact ⟨rfl, by simp⟩
  | cons a t ih =>
    intro hall
    obtain ⟨q, hq, h0, h100⟩ := hall a (by simp)
    obtain ⟨ih1, ih2⟩ := ih (fun e he => hall e (by simp [he]))
    constructor
    · rw [List.map_cons, List.filterMap_cons_some (by simpa using hq), List.map_cons,
        hq, ih1]
    · rw [List.filterMap_cons_some (by simpa using hq), List.sum_cons, List.length_cons]
      push_cast
      linarith

/-- C7: for a nonempty sample sequence every palette percentage is defined
and lies in [0, 100]; the percentages need not sum to 100 — the only bound is
100 times the number of entries. -/
theorem c7_percentage_bounds (pixels : List ℕ) (numColors : ℕ)
    (hs : sampledColors pixels ≠ []) :
    (∀ e ∈ (extractColorPalette pixels numColors).dominantColors,
      ∃ q, e.percentage = some q ∧ 0 ≤ q ∧ q ≤ 100) ∧
    (extractColorPalette pixels numColors).dominantColors.map (fun e => e.percentage) =
      ((extractColorPalette pixels numColors).dominantColors.filterMap
          (fun e => e.percentage)).map some ∧
    ((extractColorPalette pixels numColors).dominantColors.filterMap
        (fun e => e.percentage)).sum ≤
      100 * (((extractColorPalette pixels numColors).dominantColors.length : ℕ) : ℚ) := by
  have hall := extractColorPalette_percentage_some pixels numColors hs
  have hlen : ((extractColorPalette pixels numColors).dominantColors.filterMap
      (fun e => e.percentage)).sum ≤
        100 * (((extractColorPalette pixels numColors).dominantColors.length : ℕ) : ℚ) :=
    (map_percentage_eq _ hall).2
  exact ⟨hall, (map_percentage_eq _ hall).1, hlen⟩

theorem c7_percentage_bounds_witness :
    (extractColorPalette [255, 0, 0, 255] 8).dominantColors.map (fun e => e.percentage) =
      ((extractColorPalette [255, 0, 0, 255] 8).dominantColors.filterMap
          (fun e => e.percentage)).map some ∧
    ((extractColorPalette [255, 0, 0, 255] 8).dominantColors.filterMap
        (fun e => e.percentage)).sum ≤
      100 * (((extractColorPalette [255, 0, 0, 255] 8).dominantColors.length : ℕ) : ℚ) :=
  ⟨(c7_percentage_bounds [255, 0, 0, 255] 8 (by decide)).2.1,
    (c7_percentage_bounds [255, 0, 0, 255] 8 (by decide)).2.2⟩

theorem c5_uniform_stats_witness :
    calculateImageStats (uniformBuffer 10 20 30 1) =
      { averageBrightness := some (round2 (brightnessQ 10 20 30))
        contrastSq := some 0
        colorDistribution :=
          { red := some (10 : ℚ), green := some (20 : ℚ), blue := some (30 : ℚ) } } :=
  (c5_uniform_stats 10 20 30 1 (by decide) (by decide) (by decide) (by decide)).1

end ImgJson
